import Mathlib

/-!
Verification of the `Contabilidad-en-python` bookkeeping tool.

Shallow embedding conventions:
* Python `str` values are modelled as Lean `String` / `List Char`.
* Python `float` amounts are modelled as exact rationals `ℚ`; the decimal
  strings handled by the program denote exact decimal fractions, and every
  arithmetic step performed by the program on them (identity conversion,
  negation, absolute value, addition) is exact at this level of abstraction.
* Python `datetime.date` is modelled by `PyDate` together with the validity
  predicate `validDate` that the `date` constructor enforces.
* Functions that can raise are modelled with `Option` / `Except`.
* A CSV file is modelled after tokenisation by `csv.reader(f, delimiter=chr 59)`:
  a list of records, each record the list of its fields; a blank line
  tokenises to the empty record.
-/

namespace Contabilidad

/-! ### Characters and digit strings -/

/-- ASCII decimal digit test (`0`-`9`). -/
def isDig (c : Char) : Bool := '0' ≤ c && c ≤ '9'

/-- Numeric value of an ASCII digit character. -/
def dval (c : Char) : Nat := c.toNat - 48

/-- The ASCII digit character for a value `0 ≤ x ≤ 9`. -/
def dchar (x : Nat) : Char := Char.ofNat (48 + x)

/-- Value of a digit string read most-significant first. -/
def natOfDigits (ds : List Char) : Nat := ds.foldl (fun a c => 10 * a + dval c) 0

/-- Characters stripped by Python `str.strip()` (ASCII whitespace). -/
def pyIsSpace (c : Char) : Bool :=
  c = ' ' || c = '\t' || c = '\n' || c = '\x0d' || c = '\x0b' || c = '\x0c'

/-- Python `str.strip()` on a character list. -/
def pyStrip (cs : List Char) : List Char :=
  ((cs.dropWhile pyIsSpace).reverse.dropWhile pyIsSpace).reverse

/-- Python `str.strip()` on a `String`. -/
def pyStripS (s : String) : String := ⟨pyStrip s.data⟩

/-- `%02d` rendering of a natural number below 100. -/
def pad2 (n : Nat) : List Char := [dchar (n / 10 % 10), dchar (n % 10)]

/-- `%04d` rendering of a natural number below 10000. -/
def pad4 (n : Nat) : List Char :=
  [dchar (n / 1000 % 10), dchar (n / 100 % 10), dchar (n / 10 % 10), dchar (n % 10)]

/-! ### Python calendar dates -/

/-- The raw data of a Python `datetime.date`. -/
structure PyDate where
  year : Nat
  month : Nat
  day : Nat
deriving DecidableEq, Repr

/-- Gregorian leap-year test, as in `calendar.isleap`. -/
def isLeap (y : Nat) : Bool := y % 4 = 0 && (y % 100 ≠ 0 || y % 400 = 0)

/-- Number of days of month `m` in year `y`. -/
def daysInMonth (y m : Nat) : Nat :=
  if m = 2 then (if isLeap y then 29 else 28)
  else if m = 4 ∨ m = 6 ∨ m = 9 ∨ m = 11 then 30
  else 31

/-- The range check performed by the `datetime.date` constructor. -/
def validDate (y m d : Nat) : Prop :=
  1 ≤ y ∧ y ≤ 9999 ∧ 1 ≤ m ∧ m ≤ 12 ∧ 1 ≤ d ∧ d ≤ daysInMonth y m

instance (y m d : Nat) : Decidable (validDate y m d) := by
  unfold validDate; infer_instance

/-- `datetime.date(y, m, d)`: validates the ranges, else raises `ValueError`. -/
def mkDate (y m d : Nat) : Option PyDate :=
  if validDate y m d then some ⟨y, m, d⟩ else none

/-- `date.isoformat()`: the `YYYY-MM-DD` rendering of a date. -/
def isoformat (d : PyDate) : List Char :=
  pad4 d.year ++ '-' :: (pad2 d.month ++ '-' :: pad2 d.day)

/-- `date.fromisoformat` on the canonical `YYYY-MM-DD` shape: ten characters,
digits in the date positions, dashes in between, ranges validated by the
`date` constructor.  Raising `ValueError` is modelled by `none`. -/
def fromisoformat (cs : List Char) : Option PyDate :=
  match cs with
  | [y1, y2, y3, y4, s1, m1, m2, s2, d1, d2] =>
    if s1 = '-' ∧ s2 = '-' ∧ ([y1, y2, y3, y4, m1, m2, d1, d2].all isDig) then
      mkDate (natOfDigits [y1, y2, y3, y4]) (natOfDigits [m1, m2]) (natOfDigits [d1, d2])
    else none
  | _ => none

/-! ### Ledger entries (`libro_diario.py`) -/

/-- The `Entry` dataclass: `fecha`, `concepto`, `debe`, `haber`. -/
structure Entry where
  fecha : PyDate
  concepto : String
  debe : ℚ
  haber : ℚ
deriving DecidableEq, Repr

/-- One serialized row of the JSON store: the dict produced by `serialize`
(`fecha` an ISO string, `concepto` a string, `debe`/`haber` numbers). -/
structure JRow where
  fecha : List Char
  concepto : String
  debe : ℚ
  haber : ℚ
deriving DecidableEq, Repr

/-- `serialize(e)`: the dict with the ISO-formatted date and the two amounts
(`float(e.debe)` and `float(e.haber)` are the identity on numbers). -/
def serialize (e : Entry) : JRow :=
  ⟨isoformat e.fecha, e.concepto, e.debe, e.haber⟩

/-- `deserialize(row)`: rebuild an `Entry`; `date.fromisoformat` may raise. -/
def deserialize (r : JRow) : Option Entry :=
  (fromisoformat r.fecha).map fun d => ⟨d, r.concepto, r.debe, r.haber⟩

/-- `add_entry(storage, e)`: load all rows, append `serialize(e)`, save all.
The store state is the persisted row list. -/
def add_entry (rows : List JRow) (e : Entry) : List JRow :=
  rows ++ [serialize e]

/-- `list_entries(storage)`: deserialize every stored row in order; the first
failure aborts the whole call. -/
def list_entries : List JRow → Option (List Entry)
  | [] => some []
  | r :: rs =>
    match deserialize r, list_entries rs with
    | some e, some es => some (e :: es)
    | _, _ => none

/-! ### Python `float(str)` and `_parse_euro_amount` (`main.py`) -/

/-- Greedy scan of a digit run in which an underscore may stand between two
digits (Python numeric-literal underscores).  Returns the digits consumed
(underscores dropped) and the unconsumed rest. -/
def digitsU : List Char → List Char × List Char
  | [] => ([], [])
  | [c] => if isDig c then ([c], []) else ([], [c])
  | c :: d :: cs =>
    if isDig c then
      if isDig d then
        let p := digitsU (d :: cs)
        (c :: p.1, p.2)
      else if d = '_' then
        match cs with
        | e :: _ =>
          if isDig e then
            let p := digitsU cs
            (c :: p.1, p.2)
          else ([c], d :: cs)
        | [] => ([c], [d])
      else ([c], d :: cs)
    else ([], c :: d :: cs)

/-- ASCII lower-casing, for the case-insensitive `inf`/`nan` forms. -/
def asciiLower (c : Char) : Char :=
  if 'A' ≤ c ∧ c ≤ 'Z' then Char.ofNat (c.toNat + 32) else c

/-- Does the (sign-stripped) body spell an infinity or NaN
(case-insensitive)?  Such inputs are accepted by Python `float` but have no
rational value; the embedding maps them to `none`. -/
def isInfNanBody (cs : List Char) : Bool :=
  let l := cs.map asciiLower
  l = "inf".data || l = "infinity".data || l = "nan".data

/-- The numeric body after the optional sign, as an exact scaled decimal
`(m, a, b)` denoting `m * 10 ^ a / 10 ^ b`: digits, optional fraction,
optional exponent, whole input consumed. -/
def pyFloatBody (cs : List Char) : Option (Int × Nat × Nat) :=
  let ipr := digitsU cs
  let fpr : List Char × List Char :=
    match ipr.2 with
    | '.' :: r => digitsU r
    | _ => ([], ipr.2)
  let hadDot : Bool := match ipr.2 with | '.' :: _ => true | _ => false
  let fp := if hadDot then fpr.1 else []
  let r2 := if hadDot then fpr.2 else ipr.2
  if ipr.1 = [] ∧ fp = [] then none
  else
    let m : Int := (natOfDigits (ipr.1 ++ fp) : Int)
    match r2 with
    | [] => some (m, 0, fp.length)
    | c :: r3 =>
      if c = 'e' ∨ c = 'E' then
        let sr : Bool × List Char :=
          match r3 with
          | '-' :: r => (true, r)
          | '+' :: r => (false, r)
          | r => (false, r)
        let epr := digitsU sr.2
        if epr.1 = [] ∨ epr.2 ≠ [] then none
        else if sr.1 then some (m, 0, fp.length + natOfDigits epr.1)
        else some (m, natOfDigits epr.1, fp.length)
      else none

/-- The scaled decimal produced by `pyFloatBody`, with the sign applied:
`(m, a, b)` for `m * 10 ^ a / 10 ^ b`. -/
def pyFloatScaled (cs : List Char) : Option (Int × Nat × Nat) :=
  let t := pyStrip cs
  match t with
  | '-' :: r =>
    if isInfNanBody r then none
    else (pyFloatBody r).map (fun p => (-p.1, p.2.1, p.2.2))
  | '+' :: r => if isInfNanBody r then none else pyFloatBody r
  | r => if isInfNanBody r then none else pyFloatBody r

/-- The rational denoted by a scaled decimal triple. -/
def scaledQ (p : Int × Nat × Nat) : ℚ := (p.1 : ℚ) * 10 ^ p.2.1 / 10 ^ p.2.2

/-- Python `float(str)` on the inputs this program can build: strip
whitespace, optional sign, then a decimal literal with optional fraction
and exponent (underscores between digits allowed), valued exactly in `ℚ`.
`none` models `ValueError`; the non-finite forms `inf`/`infinity`/`nan`,
which have no rational counterpart, are also mapped to `none`.
(Non-ASCII decimal digits, accepted by CPython, are outside this model.) -/
def pyFloat (cs : List Char) : Option ℚ :=
  (pyFloatScaled cs).map scaledQ

/-- `s.replace(chr 46, emptyString)`: drop every dot. -/
def removeDots (cs : List Char) : List Char := cs.filter (fun c => c ≠ '.')

/-- `s.replace(chr 44, chr 46)`: turn every comma into a dot. -/
def commaToDot (cs : List Char) : List Char :=
  cs.map (fun c => if c = ',' then '.' else c)

/-- `_parse_euro_amount(s)`: strip, drop dots, comma to dot, `float(s)`;
on `ValueError` return `0.0`. -/
def _parse_euro_amount (s : String) : ℚ :=
  (pyFloat (commaToDot (removeDots (pyStrip s.data)))).getD 0

/-! ### Date parsing (`_parse_ddmmyyyy` in `main.py`) -/

/-- `str.split` on the slash character (the field decomposition forced by
the literal slashes of the format string). -/
def splitSlash : List Char → List (List Char)
  | [] => [[]]
  | c :: r =>
    if c = '/' then [] :: splitSlash r
    else
      match splitSlash r with
      | p :: ps => (c :: p) :: ps
      | [] => [[c]]

/-- `datetime.strptime(s.strip(), slash format d m Y).date()`.  CPython
matches the day field against `3[01]|[12]\d|0[1-9]|[1-9]` (one or two
digits, value 1-31), the month against `1[0-2]|0[1-9]|[1-9]` (one or two
digits, value 1-12) and the year against exactly four digits, requires the
whole string to be consumed, and then builds the `datetime`, which
re-validates the ranges (so `31/02/2025` still raises).  `none` models
`ValueError`. -/
def dmyMatch (cs : List Char) : Option PyDate :=
  match splitSlash cs with
  | [ds, ms, ys] =>
    if ds ≠ [] ∧ ds.length ≤ 2 ∧ ds.all isDig ∧
        1 ≤ natOfDigits ds ∧ natOfDigits ds ≤ 31 ∧
        ms ≠ [] ∧ ms.length ≤ 2 ∧ ms.all isDig ∧
        1 ≤ natOfDigits ms ∧ natOfDigits ms ≤ 12 ∧
        ys.length = 4 ∧ ys.all isDig then
      mkDate (natOfDigits ys) (natOfDigits ms) (natOfDigits ds)
    else none
  | _ => none

/-- The parser applied to a Python string: strip, then match. -/
def _parse_ddmmyyyy (s : String) : Option PyDate := dmyMatch (pyStrip s.data)

/-- Spec-side shape reading of `DD/MM/YYYY`: a one- or two-digit day, a
one- or two-digit month and a four-digit year separated by slashes, with
no constraint on the values.  Returns `(day, month, year)`. -/
def dmyShapeFields (cs : List Char) : Option (Nat × Nat × Nat) :=
  match splitSlash cs with
  | [ds, ms, ys] =>
    if ds ≠ [] ∧ ds.length ≤ 2 ∧ ds.all isDig ∧
        ms ≠ [] ∧ ms.length ≤ 2 ∧ ms.all isDig ∧
        ys.length = 4 ∧ ys.all isDig then
      some (natOfDigits ds, natOfDigits ms, natOfDigits ys)
    else none
  | _ => none

/-! ### Bank CSV reader (`main.py`) -/

/-- Python `l[-5:]`: the rightmost five elements (all of them if fewer). -/
def takeRight (n : Nat) (l : List α) : List α := l.drop (l.length - n)

/-- A normalized bank row: the dict built by `dict(zip(headers, data))`,
kept as its key/value pairs in insertion order. -/
abbrev BRow := List (String × String)

/-- Python `dict(zip(...)).get(k, dflt)`: on duplicate keys the last
assignment wins. -/
def dictGet (row : BRow) (k dflt : String) : String :=
  match (row.filter (fun p => p.1 == k)).getLast? with
  | some p => p.2
  | none => dflt

/-- Errors raised by `_read_bank_csv_row`: `ValueError` on an empty file,
`IndexError` carrying the requested 1-based index and the row count. -/
inductive BankErr where
  | formatError
  | indexError (idx : Int) (total : Nat)
deriving DecidableEq, Repr

/-- The row list that `_read_bank_csv_row` collects: skip records with no
fields, keep the rightmost 5 fields, skip records yielding fewer than 5,
and zip with the retained header names. -/
def readRowsList (headers : List String) (body : List (List String)) : List BRow :=
  body.filterMap (fun r =>
    if r.isEmpty then none
    else
      let data := takeRight 5 r
      if data.length ≠ 5 then none else some (headers.zip data))

/-- `_read_bank_csv_row(path, idx_one_based)`.  The file is modelled after
`csv.reader` tokenisation: one record per line; `[]` (no file lines at
all) makes `next(reader, None)` return `None` and raises `ValueError`.
The 1-based index is checked against the collected row count. -/
def _read_bank_csv_row (csv : List (List String)) (idx : Int) : Except BankErr BRow :=
  match csv with
  | [] => .error .formatError
  | header :: body =>
    let rows := readRowsList (takeRight 5 header) body
    if h : idx - 1 < 0 ∨ (rows.length : Int) ≤ idx - 1 then
      .error (.indexError idx rows.length)
    else
      .ok (rows.get ⟨(idx - 1).toNat, by push_neg at h; omega⟩)

/-- `_iter_bank_csv_rows(path)`: same tokenised-file model.  A `None` or
falsy header (no lines, or a first line with no fields) returns the empty
list; otherwise the same collection loop as `_read_bank_csv_row`, written
out separately as in the source. -/
def _iter_bank_csv_rows (csv : List (List String)) : List BRow :=
  match csv with
  | [] => []
  | header :: body =>
    if header.isEmpty then []
    else
      body.filterMap (fun r =>
        if r.isEmpty then none
        else
          let data := takeRight 5 r
          if data.length ≠ 5 then none else some ((takeRight 5 header).zip data))

/-! ### Month filter and adapter (`main.py`, bank-month and bank-add) -/

/-- The year-month key the code builds: `%04d-%02d` of year and month. -/
def ymFormat (y m : Nat) : String := ⟨pad4 y ++ '-' :: pad2 m⟩

/-- The `bank-month` filter: keep rows whose stripped, nonempty `Fecha`
parses as `DD/MM/YYYY` and whose formatted year-month equals `wanted`. -/
def bankMonthFiltered (rows : List BRow) (wanted : String) : List BRow :=
  rows.filter (fun row =>
    let fecha_txt := pyStripS (dictGet row "Fecha" "")
    if fecha_txt = "" then false
    else
      match _parse_ddmmyyyy fecha_txt with
      | none => false
      | some d => ymFormat d.year d.month == wanted)

/-- The count the `bank-month` branch reports. -/
def bankMonthCount (rows : List BRow) (wanted : String) : Nat :=
  (bankMonthFiltered rows wanted).length

/-- The total the `bank-month` branch reports: running sum of the parsed
`Importe` amounts over the kept rows. -/
def bankMonthTotal (rows : List BRow) (wanted : String) : ℚ :=
  (bankMonthFiltered rows wanted).foldl
    (fun acc r => acc + _parse_euro_amount (dictGet r "Importe" "")) 0

/-- Spec-side month predicate: the `Fecha` field parses by the
`DD/MM/YYYY` rule and its year-month formats to the target. -/
def keepRowSpec (wanted : String) (row : BRow) : Bool :=
  match _parse_ddmmyyyy (dictGet row "Fecha" "") with
  | none => false
  | some d => ymFormat d.year d.month == wanted

/-- The `bank-add` suggestion for `(debe, haber)`: parse `Importe` (with
default text `0`); a negative value suggests debit 0 and credit its
absolute value, otherwise debit the value and credit 0. -/
def bankAddSuggestedAmounts (row : BRow) : ℚ × ℚ :=
  let importe_val := _parse_euro_amount (dictGet row "Importe" "0")
  if importe_val < 0 then (0, |importe_val|) else (importe_val, 0)

/-! ### Concrete sample data for the evaluated instances -/

/-- Sample bank rows: two September 2025 movements and one October one. -/
def exSeptRow1 : BRow :=
  [("Fecha", "01/09/2025"), ("Fecha valor", "01/09/2025"),
   ("Concepto", "Pago tarjeta"), ("Importe", "100,00"),
   ("Saldo Posterior", "1.100,00")]

def exSeptRow2 : BRow :=
  [("Fecha", "15/09/2025"), ("Fecha valor", "15/09/2025"),
   ("Concepto", "Recibo luz"), ("Importe", "-2,37"),
   ("Saldo Posterior", "1.097,63")]

def exOctRow : BRow :=
  [("Fecha", "02/10/2025"), ("Fecha valor", "02/10/2025"),
   ("Concepto", "Transferencia"), ("Importe", "5,00"),
   ("Saldo Posterior", "1.102,63")]

def exBankRows : List BRow := [exSeptRow1, exSeptRow2, exOctRow]

/-- A sample tokenised bank CSV: banner header with a leading blank
column, one full data record, one short (corrupt) record, one blank line,
then another full record. -/
def exCsvHeader : List String :=
  ["", "Fecha", "Fecha valor", "Concepto", "Importe", "Saldo Posterior"]

def exCsvRec1 : List String :=
  ["", "01/09/2025", "01/09/2025", "Pago tarjeta", "100,00", "1.100,00"]

def exCsvRec2 : List String :=
  ["15/09/2025", "15/09/2025", "Recibo luz", "-2,37", "1.097,63"]

def exCsv : List (List String) :=
  [exCsvHeader, exCsvRec1, ["corrupta"], [], exCsvRec2]

/-! ### Digit round-trip lemmas -/

theorem dval_dchar (x : Nat) (h : x < 10) : dval (dchar x) = x := by
  interval_cases x <;> rfl

theorem isDig_dchar (x : Nat) (h : x < 10) : isDig (dchar x) = true := by
  interval_cases x <;> rfl

theorem natOfDigits_pad4 (n : Nat) (h : n < 10000) : natOfDigits (pad4 n) = n := by
  have h1 : n / 1000 % 10 < 10 := Nat.mod_lt _ (by norm_num)
  have h2 : n / 100 % 10 < 10 := Nat.mod_lt _ (by norm_num)
  have h3 : n / 10 % 10 < 10 := Nat.mod_lt _ (by norm_num)
  have h4 : n % 10 < 10 := Nat.mod_lt _ (by norm_num)
  simp only [natOfDigits, pad4, List.foldl,
    dval_dchar _ h1, dval_dchar _ h2, dval_dchar _ h3, dval_dchar _ h4]
  omega

theorem natOfDigits_pad2 (n : Nat) (h : n < 100) : natOfDigits (pad2 n) = n := by
  have h1 : n / 10 % 10 < 10 := Nat.mod_lt _ (by norm_num)
  have h2 : n % 10 < 10 := Nat.mod_lt _ (by norm_num)
  simp only [natOfDigits, pad2, List.foldl, dval_dchar _ h1, dval_dchar _ h2]
  omega

theorem fromisoformat_isoformat (d : PyDate) (h : validDate d.year d.month d.day) :
    fromisoformat (isoformat d) = some d := by
  obtain ⟨hy1, hy2, hm1, hm2, hd1, hd2⟩ := h
  have hy : d.year < 10000 := by omega
  have hm : d.month < 100 := by omega
  have hd : d.day < 100 := by
    have : daysInMonth d.year d.month ≤ 31 := by
      unfold daysInMonth; split_ifs <;> omega
    omega
  have hdig : ∀ n : Nat, isDig (dchar (n % 10)) = true := fun n =>
    isDig_dchar _ (Nat.mod_lt _ (by norm_num))
  simp only [isoformat, pad4, pad2, List.cons_append, List.nil_append, fromisoformat,
    List.all_cons, List.all_nil, hdig, Bool.and_self, Bool.and_true, and_true, true_and]
  rw [if_pos trivial]
  have e4 : natOfDigits (pad4 d.year) = d.year := natOfDigits_pad4 _ hy
  have e2m : natOfDigits (pad2 d.month) = d.month := natOfDigits_pad2 _ hm
  have e2d : natOfDigits (pad2 d.day) = d.day := natOfDigits_pad2 _ hd
  simp only [pad4, pad2] at e4 e2m e2d
  rw [e4, e2m, e2d, mkDate, if_pos ⟨hy1, hy2, hm1, hm2, hd1, hd2⟩]

/-- Serialize/deserialize round-trip for entries with a constructible date. -/
theorem deserialize_serialize (e : Entry)
    (h : validDate e.fecha.year e.fecha.month e.fecha.day) :
    deserialize (serialize e) = some e := by
  simp [deserialize, serialize, fromisoformat_isoformat e.fecha h]

theorem daysInMonth_le_31 (y m : Nat) : daysInMonth y m ≤ 31 := by
  unfold daysInMonth; split_ifs <;> norm_num

theorem parse_euro_scaled (s : String) (p : Int × Nat × Nat)
    (h : pyFloatScaled (commaToDot (removeDots (pyStrip s.data))) = some p) :
    _parse_euro_amount s = scaledQ p := by
  simp [_parse_euro_amount, pyFloat, h]

theorem parse_euro_fail (s : String)
    (h : pyFloatScaled (commaToDot (removeDots (pyStrip s.data))) = none) :
    _parse_euro_amount s = 0 := by
  simp [_parse_euro_amount, pyFloat, h]

theorem length_dropWhile_le (p : α → Bool) (l : List α) :
    (l.dropWhile p).length ≤ l.length := by
  induction l with
  | nil => simp
  | cons a t ih =>
    rw [List.dropWhile_cons]
    split_ifs
    · simp
      omega
    · simp

theorem dropWhile_rdropWhile_of_stripped (l : List Char)
    (hl : l.dropWhile pyIsSpace = l) :
    (l.rdropWhile pyIsSpace).dropWhile pyIsSpace = l.rdropWhile pyIsSpace := by
  rcases hr : l.rdropWhile pyIsSpace with _ | ⟨a, t⟩
  · rfl
  · have hpre := List.rdropWhile_prefix pyIsSpace l
    rw [hr] at hpre
    obtain ⟨s, hs⟩ := hpre
    have hpa : ¬pyIsSpace a = true := by
      intro hp
      rw [← hs, List.cons_append, List.dropWhile_cons_of_pos hp] at hl
      have hle := length_dropWhile_le pyIsSpace (t ++ s)
      rw [hl] at hle
      simp at hle
    rw [List.dropWhile_cons_of_neg hpa]

theorem pyStrip_pyStrip (cs : List Char) : pyStrip (pyStrip cs) = pyStrip cs := by
  have h1 : (cs.dropWhile pyIsSpace).dropWhile pyIsSpace = cs.dropWhile pyIsSpace :=
    List.dropWhile_idempotent pyIsSpace cs
  show List.rdropWhile pyIsSpace
      (((cs.dropWhile pyIsSpace).rdropWhile pyIsSpace).dropWhile pyIsSpace) =
    List.rdropWhile pyIsSpace (cs.dropWhile pyIsSpace)
  rw [dropWhile_rdropWhile_of_stripped _ h1]
  exact List.rdropWhile_idempotent pyIsSpace _

theorem parse_ddmmyyyy_pyStripS (s : String) :
    _parse_ddmmyyyy (pyStripS s) = _parse_ddmmyyyy s :=
  congrArg dmyMatch (pyStrip_pyStrip s.data)

theorem parse_ddmmyyyy_of_strip_empty (s : String) (h : pyStripS s = "") :
    _parse_ddmmyyyy s = none := by
  have hd : pyStrip s.data = [] := by
    have := congrArg String.data h
    simpa [pyStripS] using this
  show dmyMatch (pyStrip s.data) = none
  rw [hd]
  rfl

theorem keepRow_code_eq_spec (wanted : String) (row : BRow) :
    (let fecha_txt := pyStripS (dictGet row "Fecha" "")
     if fecha_txt = "" then false
     else
       match _parse_ddmmyyyy fecha_txt with
       | none => false
       | some d => ymFormat d.year d.month == wanted) =
      keepRowSpec wanted row := by
  by_cases he : pyStripS (dictGet row "Fecha" "") = ""
  · simp only [he, keepRowSpec, parse_ddmmyyyy_of_strip_empty _ he]
    simp
  · simp only [if_neg he, keepRowSpec, parse_ddmmyyyy_pyStripS]

theorem foldl_add_map_sum (f : BRow → ℚ) (l : List BRow) (init : ℚ) :
    l.foldl (fun acc r => acc + f r) init = init + (l.map f).sum := by
  induction l generalizing init with
  | nil => simp
  | cons r t ih => simp [ih, add_assoc]

theorem list_entries_append_serialize (rows : List JRow) (e : Entry)
    (h : validDate e.fecha.year e.fecha.month e.fecha.day) :
    list_entries (rows ++ [serialize e]) =
      (list_entries rows).map (fun es => es ++ [e]) := by
  induction rows with
  | nil => simp [list_entries, deserialize_serialize e h]
  | cons r rs ih =>
    cases hd : deserialize r <;> cases hl : list_entries rs <;>
      simp [list_entries, hd, hl, ih]

theorem list_entries_foldl_add (es : List Entry) (s : List JRow) (ps : List Entry)
    (hs : list_entries s = some ps)
    (hv : ∀ e ∈ es, validDate e.fecha.year e.fecha.month e.fecha.day) :
    list_entries (es.foldl add_entry s) = some (ps ++ es) := by
  induction es generalizing s ps with
  | nil => simpa using hs
  | cons e rest ih =>
    have hstep : list_entries (add_entry s e) = some (ps ++ [e]) := by
      rw [add_entry, list_entries_append_serialize s e (hv e (by simp)), hs]
      rfl
    have := ih (add_entry s e) (ps ++ [e]) hstep (fun x hx => hv x (by simp [hx]))
    simpa using this

end Contabilidad

namespace Contabilidad

/-- C1: as stated the claim quantifies over every store `s`; it fails on a
store that already holds an entry.  With prior row `serialize previo` in the
store, adding the single entry `nuevo` makes `list_entries` return
`[previo, nuevo]`, not `[nuevo]`. -/
theorem add_list_counterexample :
    list_entries (add_entry [serialize ⟨⟨2025, 1, 1⟩, "previo", 5, 0⟩]
        ⟨⟨2025, 1, 2⟩, "nuevo", 7, 0⟩) ≠
      some [⟨⟨2025, 1, 2⟩, "nuevo", 7, 0⟩] := by
  decide

/-- C1 (amended): for every store whose current rows deserialize to
entries `ps`, after adding `e1…en` in order via `add_entry`,
`list_entries` returns `ps ++ [e1, …, en]` in that order; in particular a
store that starts empty yields exactly `[e1, …, en]`. -/
theorem add_entries_then_list (s : List JRow) (es : List Entry) (ps : List Entry)
    (hs : list_entries s = some ps)
    (hv : ∀ e ∈ es, validDate e.fecha.year e.fecha.month e.fecha.day) :
    list_entries (es.foldl add_entry s) = some (ps ++ es) :=
  list_entries_foldl_add es s ps hs hv

/-- C1 witness: starting from the empty store and adding two concrete
entries, `list_entries` returns exactly those two entries in order. -/
theorem add_entries_then_list_witness :
    list_entries (([⟨⟨2025, 3, 1⟩, "alquiler", 800, 0⟩,
        ⟨⟨2025, 3, 2⟩, "ingreso", 0, 1200⟩] : List Entry).foldl add_entry []) =
      some ([] ++ [⟨⟨2025, 3, 1⟩, "alquiler", 800, 0⟩,
        ⟨⟨2025, 3, 2⟩, "ingreso", 0, 1200⟩]) :=
  add_entries_then_list [] _ [] rfl (by decide)

/-- C2: for every `Entry` whose date satisfies the `datetime.date`
constructor ranges, `deserialize (serialize e)` returns `e`. -/
theorem serialize_roundtrip (e : Entry)
    (h : validDate e.fecha.year e.fecha.month e.fecha.day) :
    deserialize (serialize e) = some e :=
  deserialize_serialize e h

/-- C2 witness: the round-trip at a concrete entry. -/
theorem serialize_roundtrip_witness :
    validDate 2025 9 4 ∧
    deserialize (serialize ⟨⟨2025, 9, 4⟩, "nómina", 1234, 0⟩) =
      some ⟨⟨2025, 9, 4⟩, "nómina", 1234, 0⟩ :=
  ⟨by decide, serialize_roundtrip ⟨⟨2025, 9, 4⟩, "nómina", 1234, 0⟩ (by decide)⟩

/-- C3: `_parse_euro_amount` strips whitespace, removes every dot,
turns commas into dots and parses as a float, falling back to `0.0` on a
parse failure (totality of the function is the no-error part); in
particular the three documented inputs evaluate as claimed. -/
theorem euro_amount_parsing :
    (∀ s : String, _parse_euro_amount s =
      (pyFloat (commaToDot (removeDots (pyStrip s.data)))).getD 0) ∧
    _parse_euro_amount "-2,37" = -237 / 100 ∧
    _parse_euro_amount "1.234,56" = 123456 / 100 ∧
    _parse_euro_amount "abc" = 0 := by
  refine ⟨fun s => rfl, ?_, ?_, ?_⟩
  · rw [parse_euro_scaled "-2,37" (-237, 0, 2) (by decide)]
    norm_num [scaledQ]
  · rw [parse_euro_scaled "1.234,56" (123456, 0, 2) (by decide)]
    norm_num [scaledQ]
  · rw [parse_euro_fail "abc" (by decide)]

/-- C4: the claim says the parser accepts exactly the strings of shape
`DD/MM/YYYY`; the string `31/02/2025` has that shape yet the parser
raises, because the `datetime` constructor rejects February 31. -/
theorem parse_date_shape_counterexample :
    (dmyShapeFields (String.data "31/02/2025")).isSome = true ∧
    _parse_ddmmyyyy "31/02/2025" = none := by
  constructor <;> decide

/-- C4 (amended): after stripping surrounding whitespace the parser
accepts exactly the strings of shape `D(D)/M(M)/YYYY` whose fields form a
valid calendar date (the `datetime` range check), returning that date, and
fails on everything else; `4/9/2025` and `04/09/2025` both give 2025-09-04
and `2025-09-04` fails. -/
theorem parse_date_characterization :
    (∀ s : String, _parse_ddmmyyyy s =
      (dmyShapeFields (pyStrip s.data)).bind (fun t => mkDate t.2.2 t.2.1 t.1)) ∧
    _parse_ddmmyyyy "4/9/2025" = some ⟨2025, 9, 4⟩ ∧
    _parse_ddmmyyyy "04/09/2025" = some ⟨2025, 9, 4⟩ ∧
    _parse_ddmmyyyy "2025-09-04" = none := by
  refine ⟨fun s => ?_, by decide, by decide, by decide⟩
  rcases h : splitSlash (pyStrip s.data) with _ | ⟨ds, _ | ⟨ms, _ | ⟨ys, _ | ⟨z, zs⟩⟩⟩⟩ <;>
    simp only [_parse_ddmmyyyy, dmyMatch, dmyShapeFields, h] <;> try rfl
  split_ifs with h1 h2 h2
  · rfl
  · exact absurd ⟨h1.1, h1.2.1, h1.2.2.1, h1.2.2.2.2.2.1, h1.2.2.2.2.2.2.1,
      h1.2.2.2.2.2.2.2.1, h1.2.2.2.2.2.2.2.2.2.2.1, h1.2.2.2.2.2.2.2.2.2.2.2⟩ h2
  · rw [Option.some_bind]
    dsimp only
    symm
    rw [mkDate, if_neg]
    intro hv
    obtain ⟨s1, s2, s3, s4, s5, s6, s7, s8⟩ := h2
    obtain ⟨v1, v2, v3, v4, v5, v6⟩ := hv
    have h31 := daysInMonth_le_31 (natOfDigits ys) (natOfDigits ms)
    exact h1 ⟨s1, s2, s3, v5, by omega, s4, s5, s6, v3, v4, s7, s8⟩
  · rfl

/-- C6: for a header line with at least its five useful columns,
`_iter_bank_csv_rows` keeps, in file order, exactly the records with at
least 5 fields, each normalized to the rightmost five fields zipped with
the rightmost five header names (so blank records and records with fewer
than 5 trailing fields never appear), and every produced row binds exactly
5 header names. -/
theorem iter_bank_rows_characterization (header : List String)
    (body : List (List String)) (h5 : 5 ≤ header.length) :
    _iter_bank_csv_rows (header :: body) =
      body.filterMap (fun r =>
        if 5 ≤ r.length then
          some ((takeRight 5 header).zip (takeRight 5 r))
        else none) ∧
    ∀ row ∈ _iter_bank_csv_rows (header :: body), row.length = 5 := by
  have hne : ¬header.isEmpty = true := by
    rw [List.isEmpty_iff]
    intro h
    rw [h] at h5
    simp at h5
  have hhl : (takeRight 5 header).length = 5 := by
    simp only [takeRight, List.length_drop]
    omega
  have heq : _iter_bank_csv_rows (header :: body) =
      body.filterMap (fun r =>
        if 5 ≤ r.length then
          some ((takeRight 5 header).zip (takeRight 5 r))
        else none) := by
    simp only [_iter_bank_csv_rows, if_neg hne]
    apply List.filterMap_congr
    intro r _
    by_cases hr : r.isEmpty = true
    · have h0 : r.length = 0 := by
        rw [List.isEmpty_iff] at hr
        simp [hr]
      rw [if_pos hr, if_neg (by omega)]
    · have hlen : (takeRight 5 r).length = r.length - (r.length - 5) := by
        simp [takeRight]
      have h0 : r.length ≠ 0 := by
        intro h
        exact hr (List.isEmpty_iff_length_eq_zero.mpr h)
      rw [if_neg hr]
      by_cases h5r : 5 ≤ r.length
      · rw [if_pos h5r]
        simp only [if_neg (show ¬(takeRight 5 r).length ≠ 5 by omega)]
      · rw [if_neg h5r, if_pos (by omega)]
  refine ⟨heq, fun row hrow => ?_⟩
  rw [heq] at hrow
  obtain ⟨r, hr, hcond⟩ := List.mem_filterMap.mp hrow
  by_cases h5r : 5 ≤ r.length
  · rw [if_pos h5r] at hcond
    obtain rfl : (takeRight 5 header).zip (takeRight 5 r) = row :=
      Option.some.injEq _ _ ▸ hcond
    have : (takeRight 5 r).length = r.length - (r.length - 5) := by
      simp [takeRight]
    rw [List.length_zip, hhl]
    omega
  · rw [if_neg h5r] at hcond
    exact absurd hcond (by simp)

/-- C6 witness: on the sample CSV (banner header with six columns, a
six-field record, a short record and a blank line) the reader produces
exactly the one normalized full row. -/
theorem iter_bank_rows_characterization_witness :
    5 ≤ exCsvHeader.length ∧
    _iter_bank_csv_rows [exCsvHeader, exCsvRec1, ["corrupta"]] = [exSeptRow1] :=
  ⟨by decide, by
    rw [(iter_bank_rows_characterization exCsvHeader [exCsvRec1, ["corrupta"]]
      (by decide)).1]
    decide⟩

/-- C7: with `rows` the list the reader collects, a 1-based index inside
`[1, rows.length]` returns the corresponding row (index 1 the first kept
data row), and any index that is zero, negative or beyond the row count
fails with the index error carrying the requested index and the total row
count. -/
theorem read_row_index_contract (header : List String)
    (body : List (List String)) (i : Int) :
    (∀ hi : 1 ≤ i ∧ i ≤ ((readRowsList (takeRight 5 header) body).length : Int),
      _read_bank_csv_row (header :: body) i =
        .ok ((readRowsList (takeRight 5 header) body).get
          ⟨(i - 1).toNat, by omega⟩)) ∧
    (i ≤ 0 ∨ ((readRowsList (takeRight 5 header) body).length : Int) < i →
      _read_bank_csv_row (header :: body) i =
        .error (.indexError i (readRowsList (takeRight 5 header) body).length)) := by
  constructor
  · intro hi
    simp only [_read_bank_csv_row]
    rw [dif_neg (by omega)]
  · intro hi
    simp only [_read_bank_csv_row]
    rw [dif_pos (by omega)]

/-- C7 witness: on a two-row sample CSV, index 1 returns the first data
row, while indices 0 and 3 fail with the index error reporting the index
and the total of 2 rows. -/
theorem read_row_index_contract_witness :
    (1 ≤ (1 : Int) ∧
      (1 : Int) ≤ ((readRowsList (takeRight 5 exCsvHeader)
        [exCsvRec1, exCsvRec2]).length : Int)) ∧
    _read_bank_csv_row [exCsvHeader, exCsvRec1, exCsvRec2] 1 = .ok exSeptRow1 ∧
    _read_bank_csv_row [exCsvHeader, exCsvRec1, exCsvRec2] 0 =
      .error (.indexError 0 2) ∧
    _read_bank_csv_row [exCsvHeader, exCsvRec1, exCsvRec2] 3 =
      .error (.indexError 3 2) := by
  refine ⟨by decide, ?_, ?_, ?_⟩
  · rw [(read_row_index_contract exCsvHeader [exCsvRec1, exCsvRec2] 1).1
      (by decide)]
    rfl
  · exact (read_row_index_contract exCsvHeader [exCsvRec1, exCsvRec2] 0).2
      (by decide)
  · exact (read_row_index_contract exCsvHeader [exCsvRec1, exCsvRec2] 3).2
      (by decide)

/-- C10: whenever the 1-based index `i` lands inside the sequence that
`_iter_bank_csv_rows` produces, `_read_bank_csv_row` returns exactly the
`i`-th element of that sequence: the two separately written CSV loops
agree on header normalization, row skipping and row content. -/
theorem read_row_agrees_iterate (csv : List (List String)) (i : Int)
    (h1 : 1 ≤ i) (row : BRow)
    (h2 : (_iter_bank_csv_rows csv).get? (i - 1).toNat = some row) :
    _read_bank_csv_row csv i = .ok row := by
  match csv with
  | [] => simp [_iter_bank_csv_rows] at h2
  | header :: body =>
    by_cases hh : header.isEmpty = true
    · rw [show _iter_bank_csv_rows (header :: body) = [] by
        simp [_iter_bank_csv_rows, hh]] at h2
      simp at h2
    · have hrows : readRowsList (takeRight 5 header) body =
          _iter_bank_csv_rows (header :: body) := by
        simp only [_iter_bank_csv_rows, if_neg hh, readRowsList]
      have hget : (readRowsList (takeRight 5 header) body).get?
          (i - 1).toNat = some row := by rw [hrows]; exact h2
      obtain ⟨hlt, hval⟩ := List.get?_eq_some.mp hget
      simp only [_read_bank_csv_row]
      rw [dif_neg (by omega)]
      exact congrArg Except.ok hval

/-- C10 witness: on the sample CSV with a skipped short record and a
skipped blank line, index 2 returns the second row of the iterated
sequence. -/
theorem read_row_agrees_iterate_witness :
    1 ≤ (2 : Int) ∧
    (_iter_bank_csv_rows exCsv).get? ((2 : Int) - 1).toNat = some exSeptRow2 ∧
    _read_bank_csv_row exCsv 2 = .ok exSeptRow2 :=
  ⟨by decide, by decide,
    read_row_agrees_iterate exCsv 2 (by decide) exSeptRow2 (by decide)⟩

/-- C5: the month filter keeps, in original order, exactly the rows whose
`Fecha` field parses by the `DD/MM/YYYY` rule to the wanted year-month
(empty or unparsable dates silently dropped); the reported aggregate is
the count of kept rows and the sum of their parsed `Importe` amounts; on
the three sample rows, filtering September 2025 keeps the first two with
count 2 and total 97.63. -/
theorem bank_month_filter_spec :
    (∀ (rows : List BRow) (wanted : String),
      bankMonthFiltered rows wanted = rows.filter (keepRowSpec wanted)) ∧
    (∀ (rows : List BRow) (wanted : String),
      bankMonthCount rows wanted = (rows.filter (keepRowSpec wanted)).length) ∧
    (∀ (rows : List BRow) (wanted : String),
      bankMonthTotal rows wanted =
        ((rows.filter (keepRowSpec wanted)).map
          (fun r => _parse_euro_amount (dictGet r "Importe" ""))).sum) ∧
    bankMonthFiltered exBankRows "2025-09" = [exSeptRow1, exSeptRow2] ∧
    bankMonthCount exBankRows "2025-09" = 2 ∧
    bankMonthTotal exBankRows "2025-09" = 9763 / 100 := by
  have hfil : ∀ (rows : List BRow) (wanted : String),
      bankMonthFiltered rows wanted = rows.filter (keepRowSpec wanted) := by
    intro rows wanted
    exact List.filter_congr (fun row _ => keepRow_code_eq_spec wanted row)
  refine ⟨hfil, fun rows wanted => congrArg List.length (hfil rows wanted),
    ?_, ?_, by decide, ?_⟩
  · intro rows wanted
    rw [bankMonthTotal, hfil rows wanted, foldl_add_map_sum]
    rw [zero_add]
  · decide
  · have hf : bankMonthFiltered exBankRows "2025-09" = [exSeptRow1, exSeptRow2] := by
      decide
    rw [bankMonthTotal, hf]
    simp only [List.foldl]
    rw [show dictGet exSeptRow1 "Importe" "" = "100,00" from rfl,
      show dictGet exSeptRow2 "Importe" "" = "-2,37" from rfl,
      parse_euro_scaled "100,00" (10000, 0, 2) (by decide),
      parse_euro_scaled "-2,37" (-237, 0, 2) (by decide)]
    norm_num [scaledQ]

/-- C8: the `bank-add` suggestion parses `Importe` and, when the value is
negative, suggests debit 0 and credit its absolute value, otherwise debit
the value and credit 0; on the sample rows `-10,00` gives `(0, 10)` and
`10,00` gives `(10, 0)`. -/
theorem bank_add_sign_convention :
    (∀ row : BRow,
      bankAddSuggestedAmounts row =
        if _parse_euro_amount (dictGet row "Importe" "0") < 0 then
          (0, |_parse_euro_amount (dictGet row "Importe" "0")|)
        else (_parse_euro_amount (dictGet row "Importe" "0"), 0)) ∧
    bankAddSuggestedAmounts [("Concepto", "pago"), ("Importe", "-10,00")] = (0, 10) ∧
    bankAddSuggestedAmounts [("Concepto", "abono"), ("Importe", "10,00")] = (10, 0) := by
  refine ⟨fun row => rfl, ?_, ?_⟩
  · show (if _parse_euro_amount (dictGet [("Concepto", "pago"),
        ("Importe", "-10,00")] "Importe" "0") < 0 then
          (0, |_parse_euro_amount (dictGet [("Concepto", "pago"),
            ("Importe", "-10,00")] "Importe" "0")|)
        else (_parse_euro_amount (dictGet [("Concepto", "pago"),
          ("Importe", "-10,00")] "Importe" "0"), 0)) = ((0 : ℚ), (10 : ℚ))
    rw [show dictGet [("Concepto", "pago"), ("Importe", "-10,00")]
        "Importe" "0" = "-10,00" from rfl,
      parse_euro_scaled "-10,00" (-1000, 0, 2) (by decide)]
    norm_num [scaledQ]
  · show (if _parse_euro_amount (dictGet [("Concepto", "abono"),
        ("Importe", "10,00")] "Importe" "0") < 0 then
          (0, |_parse_euro_amount (dictGet [("Concepto", "abono"),
            ("Importe", "10,00")] "Importe" "0")|)
        else (_parse_euro_amount (dictGet [("Concepto", "abono"),
          ("Importe", "10,00")] "Importe" "0"), 0)) = ((10 : ℚ), (0 : ℚ))
    rw [show dictGet [("Concepto", "abono"), ("Importe", "10,00")]
        "Importe" "0" = "10,00" from rfl,
      parse_euro_scaled "10,00" (1000, 0, 2) (by decide)]
    norm_num [scaledQ]

/-- C9: the claim says both reader operations raise on an empty source
file; `_iter_bank_csv_rows` instead returns the empty list normally
(`_read_bank_csv_row` does raise). -/
theorem empty_csv_counterexample :
    _iter_bank_csv_rows [] = [] ∧
    _read_bank_csv_row [] 1 = .error .formatError := by
  exact ⟨rfl, rfl⟩

/-- C9 (amended): on an empty source file `_read_bank_csv_row` fails with
the `ValueError`-style format error for every requested index, while
`_iter_bank_csv_rows` raises nothing and returns the empty sequence. -/
theorem empty_csv_behavior :
    (∀ i : Int, _read_bank_csv_row [] i = .error .formatError) ∧
    _iter_bank_csv_rows [] = [] :=
  ⟨fun _ => rfl, rfl⟩

end Contabilidad
